import Mathlib

/-!
Verification of the Desktop-Notes-Taking-Application synchronization core.

This file gives a shallow embedding, in Lean 4, of the note data model
(`src/models/Note.js`), the permission service (`src/services/permissionService.js`),
the invite model (`src/models/Invite.js`), the sync service
(`src/services/syncService.js`) and the note routes (`src/routes/noteRoutes.js`),
and proves or refutes the specification's claims about them.

Modelling conventions:
- JavaScript `null`/`undefined` string fields become `Option String`;
  JavaScript string falsiness (empty string counts as absent) is modelled
  explicitly where the source relies on it.
- Mongoose documents become Lean structures; the database collection becomes a
  `List` of documents; `save` becomes a functional replacement in that list.
- JS numbers used as versions/timestamps become `Int`.
- Thrown exceptions become `Except String`; side effects (cache invalidation,
  websocket emission) become an explicit effect list.
-/

namespace NotesApp

/-- Sharing permission stored in a `sharedWith` entry
(Mongoose enum restricted to the strings `read` and `edit`). -/
inductive Perm where
  | read
  | edit
deriving Repr, DecidableEq

/-- Result of `Note.hasPermission`: the JS method returns one of the strings
`owner`, `edit`, `read`, `public`, or `null`; `null` is modelled by `Option.none`. -/
inductive PermLevel where
  | owner
  | edit
  | read
  | public
deriving Repr, DecidableEq

/-- One entry of a note's `sharedWith` array: `SharedWithSchema` from
`src/models/Note.js` (the `sharedAt : Date` metadata field carries no logic
used by any operation modelled here and is omitted). -/
structure SharedEntry where
  user : String
  permission : Perm
deriving Repr, DecidableEq

/-- The `Note` document from `src/models/Note.js`.  `id` models `_id`
stringified; `owner` and the sharing-list user identities are stringified
ObjectIds; `version` is the application-level version number. -/
structure Note where
  id : String
  owner : String
  title : String
  body : String
  tags : List String
  version : Int
  deleted : Bool
  lastModifiedByClientId : Option String
  sharedWith : List SharedEntry
  isPublic : Bool
deriving Repr, DecidableEq

/-- Required-level table of `hasPermission`: `levels[required] || levels.read`
maps the string `edit` to 2 and every other string (including `read` and any
garbage value) to 1. -/
def levelNeed (required : String) : Nat :=
  if required = "edit" then 2 else 1

/-- Scan of the `sharedWith` array inside `Note.hasPermission`: the first entry
whose user matches decides the outcome (sufficient level returns that level,
insufficient returns null with no fallback); entries are typed so the JS
null-entry guard `if (!s || !s.user) continue` is vacuous. -/
def scanShared (need : Nat) (uid : String) : List SharedEntry → Option PermLevel
  | [] => none
  | s :: rest =>
    if s.user = uid then
      match s.permission with
      | Perm.edit => if need ≤ 2 then some PermLevel.edit else none
      | Perm.read => if need ≤ 1 then some PermLevel.read else none
    else scanShared need uid rest

/-- `NoteSchema.methods.hasPermission(userId, required)` from
`src/models/Note.js`: owner check, then public check (public only ever grants
read-level), then the sharing-list scan.  A falsy `userId` (absent or the empty
string) yields null. -/
def hasPermission (n : Note) (userId : Option String) (required : String) : Option PermLevel :=
  let need := levelNeed required
  match userId with
  | none => none
  | some uid =>
    if uid = "" then none
    else if n.owner = uid then some PermLevel.owner
    else if n.isPublic = true ∧ need ≤ 1 then some PermLevel.public
    else scanShared need uid n.sharedWith

/-- `NoteSchema.methods.shareWith(userId, permission)`: throws on a falsy
userId, otherwise removes any existing entry for that user and pushes a fresh
entry (permission coerced to `edit` only when the string is exactly `edit`). -/
def shareWith (n : Note) (userId : String) (permission : String) : Except String Note :=
  if userId = "" then Except.error "userId required"
  else
    let entry : SharedEntry :=
      { user := userId, permission := if permission = "edit" then Perm.edit else Perm.read }
    Except.ok { n with sharedWith := n.sharedWith.filter (fun s => s.user ≠ userId) ++ [entry] }

/-- `NoteSchema.methods.unshareWith(userId)`: throws on a falsy userId,
otherwise filters the entry out (returning the document unchanged when nothing
was removed). -/
def unshareWith (n : Note) (userId : String) : Except String Note :=
  if userId = "" then Except.error "userId required"
  else Except.ok { n with sharedWith := n.sharedWith.filter (fun s => s.user ≠ userId) }

/-- `NoteSchema.methods.bumpVersion`: `this.version = (this.version || 0) + 1`.
On integer versions `v || 0` differs from `v` only at `v = 0`, where both make
the result 1, so the update is exactly `+ 1`. -/
def bumpVersion (n : Note) : Note :=
  { n with version := n.version + 1 }

/-- `NoteSchema.methods.softDelete`: sets the deleted flag and bumps the
version (the `save` is modelled at the store level). -/
def softDelete (n : Note) : Note :=
  bumpVersion { n with deleted := true }

/-- The note collection together with a fresh-id source standing for
MongoDB ObjectId generation. -/
structure Store where
  notes : List Note
  nextId : Nat
deriving Repr, DecidableEq

/-- `Note.findById(id)`: lookup by id only, soft-deleted documents included. -/
def findById (store : Store) (nid : String) : Option Note :=
  store.notes.find? (fun n => n.id == nid)

/-- `Note.findOne(\x7b _id: id, deleted: false \x7d)` as used by the sync
service: lookup by id among live (non-deleted) documents. -/
def findOneActive (store : Store) (nid : String) : Option Note :=
  store.notes.find? (fun n => n.id == nid && n.deleted == false)

/-- `doc.save()` on an already-persisted document: replace the stored document
carrying the same id. -/
def saveNote (store : Store) (d : Note) : Store :=
  { store with notes := store.notes.map (fun n => if n.id = d.id then d else n) }

/-- `PermissionService.shareNote(noteId, ownerId, targetUserId, permission)`
from `src/services/permissionService.js`: loads the note, requires the caller
to be the owner, then delegates to `shareWith` (the websocket notification is
not relevant to the sharing-list state and is omitted here). -/
def shareNote (store : Store) (noteId ownerId targetUserId permission : String) :
    Except String (Note × Store) :=
  match findById store noteId with
  | none => Except.error "Note not found"
  | some note =>
    if note.owner ≠ ownerId then Except.error "Only the owner can share this note"
    else
      match shareWith note targetUserId permission with
      | Except.error e => Except.error e
      | Except.ok note2 => Except.ok (note2, saveNote store note2)

/-- JavaScript `a || b` on optional strings, where the empty string is falsy. -/
def jsOrStr : Option String → Option String → Option String
  | some s, b => if s = "" then b else some s
  | none, b => b

/-- The `note` payload of a client change request: each field is `some` exactly
when the client supplied a value of the type the sync service tests for
(`typeof === 'string'` for title/body, `Array.isArray` for tags,
`typeof === 'number'` for version). -/
structure ChangePayload where
  id : Option String
  title : Option String
  body : Option String
  tags : Option (List String)
  version : Option Int
  lastModifiedByClientId : Option String
deriving Repr, DecidableEq

/-- A well-formed-enough client change object (`\x7b op, localId?, note \x7d`);
a batch entry that is `null`/`undefined` altogether is modelled as
`Option.none` at the batch level. -/
structure ChangeRequest where
  op : Option String
  localId : Option String
  note : Option ChangePayload
deriving Repr, DecidableEq

/-- Outcome status of one change: `ok`, `conflict` or `error`. -/
inductive Status where
  | ok
  | conflict
  | error
deriving Repr, DecidableEq

/-- One element of the result array returned by the sync service. -/
structure SyncResult where
  localId : Option String
  id : Option String
  status : Status
  serverNote : Option Note
  error : Option String
deriving Repr, DecidableEq

/-- Observable side effect of the sync service: cache invalidation for a set of
users, websocket emission to a user room, websocket emission to a note room. -/
inductive Effect where
  | invalidate (users : List String)
  | emitToUser (user : String) (event : String)
  | emitToNote (noteId : String) (event : String)
deriving Repr, DecidableEq

/-- The affected-user computation shared by the sync functions:
`[doc.owner, ...doc.sharedWith.map(s => s.user)]`. -/
def affectedUsers (d : Note) : List String :=
  d.owner :: d.sharedWith.map SharedEntry.user

/-- The permission condition of `applyUpdate`/`applyDelete`:
`!(!perm || (perm !== 'owner' && perm !== 'edit'))`, i.e. the resolved level is
exactly `owner` or `edit`. -/
def permAllowsEdit : Option PermLevel → Bool
  | some PermLevel.owner => true
  | some PermLevel.edit => true
  | _ => false

/-- `applyCreate(userId, change)` from `src/services/syncService.js`.  A change
without a `note` object makes the JS body throw a TypeError when destructured
fields are read (modelled as `Except.error`); otherwise a new document is built
with schema defaults, saved, caches invalidated and a `note:created` event
emitted to every affected user. -/
def applyCreate (userId : String) (change : ChangeRequest) (store : Store) :
    Except String (SyncResult × Store × List Effect) :=
  match change.note with
  | none => Except.error "Cannot read properties of undefined"
  | some note =>
    let doc : Note :=
      { id := toString store.nextId
        owner := userId
        title := note.title.getD ""
        body := note.body.getD ""
        tags := note.tags.getD []
        version := note.version.getD 1
        deleted := false
        lastModifiedByClientId := jsOrStr note.lastModifiedByClientId none
        sharedWith := []
        isPublic := false }
    let store2 : Store := { notes := store.notes ++ [doc], nextId := store.nextId + 1 }
    let affected := affectedUsers doc
    Except.ok
      ({ localId := change.localId, id := some doc.id, status := Status.ok,
         serverNote := some doc, error := none },
       store2,
       Effect.invalidate affected :: affected.map (fun uid => Effect.emitToUser uid "note:created"))

/-- Result record for the early-error returns of `applyUpdate`/`applyDelete`. -/
def errResult (localId : Option String) (id : Option String) (msg : String) : SyncResult :=
  { localId := localId, id := id, status := Status.error, serverNote := none, error := some msg }

/-- The mutation-commit tail of `applyUpdate`: apply the typed field updates,
bump the version, save, invalidate caches for the affected users and emit
`note:updated` to each user room and to the note room. -/
def commitUpdate (change : ChangeRequest) (note : ChangePayload) (nid : String) (doc : Note)
    (store : Store) : SyncResult × Store × List Effect :=
  let doc2 : Note := bumpVersion
    { doc with
      title := note.title.getD doc.title
      body := note.body.getD doc.body
      tags := note.tags.getD doc.tags
      lastModifiedByClientId := jsOrStr note.lastModifiedByClientId doc.lastModifiedByClientId }
  let store2 := saveNote store doc2
  let affected := affectedUsers doc2
  ({ localId := change.localId, id := some nid, status := Status.ok,
     serverNote := some doc2, error := none },
   store2,
   Effect.invalidate affected ::
     (affected.map (fun uid => Effect.emitToUser uid "note:updated") ++
       [Effect.emitToNote doc2.id "note:updated"]))

/-- `applyUpdate(userId, change)` from `src/services/syncService.js`:
id guard, live-document lookup, permission check requiring `edit`, version
gate (`typeof note.version === 'number' && note.version < doc.version` yields
a `conflict` carrying the current snapshot), then the commit tail. -/
def applyUpdate (userId : String) (change : ChangeRequest) (store : Store) :
    SyncResult × Store × List Effect :=
  match change.note with
  | none => (errResult change.localId none "id required for update", store, [])
  | some note =>
    match note.id with
    | none => (errResult change.localId none "id required for update", store, [])
    | some nid =>
      match findOneActive store nid with
      | none => (errResult change.localId (some nid) "note not found", store, [])
      | some doc =>
        if permAllowsEdit (hasPermission doc (some userId) "edit") then
          match note.version with
          | some v =>
            if v < doc.version then
              ({ localId := change.localId, id := some nid, status := Status.conflict,
                 serverNote := some doc, error := none }, store, [])
            else commitUpdate change note nid doc store
          | none => commitUpdate change note nid doc store
        else (errResult change.localId (some nid) "no permission", store, [])

/-- `applyDelete(userId, change)` from `src/services/syncService.js`: same id,
lookup and permission path as `applyUpdate`, but no version gate of any kind —
it soft-deletes, saves, invalidates and emits `note:deleted` unconditionally. -/
def applyDelete (userId : String) (change : ChangeRequest) (store : Store) :
    SyncResult × Store × List Effect :=
  match change.note with
  | none => (errResult change.localId none "id required for delete", store, [])
  | some note =>
    match note.id with
    | none => (errResult change.localId none "id required for delete", store, [])
    | some nid =>
      match findOneActive store nid with
      | none => (errResult change.localId (some nid) "note not found", store, [])
      | some doc =>
        if permAllowsEdit (hasPermission doc (some userId) "edit") then
          let doc2 := softDelete doc
          let store2 := saveNote store doc2
          let affected := affectedUsers doc2
          ({ localId := change.localId, id := some nid, status := Status.ok,
             serverNote := none, error := none },
           store2,
           Effect.invalidate affected ::
             (affected.map (fun uid => Effect.emitToUser uid "note:deleted") ++
               [Effect.emitToNote doc2.id "note:deleted"]))
        else (errResult change.localId (some nid) "no permission", store, [])

/-- JavaScript falsiness of the `op` field (`!change.op`): absent or empty. -/
def opFalsy : Option String → Bool
  | none => true
  | some s => s == ""

/-- Dispatch for one non-null batch entry, including the per-change catch that
turns a thrown `applyCreate` into an `error` outcome. -/
def applyChange (userId : String) (c : ChangeRequest) (store : Store) :
    SyncResult × Store × List Effect :=
  if opFalsy c.op then (errResult c.localId none "invalid change", store, [])
  else if c.op = some "create" then
    match applyCreate userId c store with
    | Except.ok x => x
    | Except.error m => (errResult c.localId none m, store, [])
  else if c.op = some "update" then applyUpdate userId c store
  else if c.op = some "delete" then applyDelete userId c store
  else (errResult c.localId none "unknown op", store, [])

/-- `syncChanges(userId, changes)` from `src/services/syncService.js`.  A batch
entry that is `null`/`undefined` makes the loop body evaluate
`change.localId` — first in the `!change` branch and then again inside the
`catch` handler — so the TypeError escapes the per-change try/catch and the
whole call rejects; this is modelled by `Except.error` discarding all results. -/
def syncChanges (userId : String) (changes : List (Option ChangeRequest)) (store : Store) :
    Except String (List SyncResult × Store × List Effect) :=
  match changes with
  | [] => Except.ok ([], store, [])
  | none :: _ => Except.error "TypeError: Cannot read properties of null"
  | some c :: rest =>
    let x := applyChange userId c store
    match syncChanges userId rest x.2.1 with
    | Except.ok (rs, s2, effs2) => Except.ok (x.1 :: rs, s2, x.2.2 ++ effs2)
    | Except.error e => Except.error e

/-- Lowercasing as performed by `String.prototype.toLowerCase` on the ASCII
e-mail strings handled here. -/
def lowerStr (s : String) : String :=
  s.map Char.toLower

/-- The invite token hash (`crypto.createHash('sha256')...`).  Only equality of
hashes is ever used by the source (unique-index lookup), so SHA-256 is
modelled as an injective tagging of the plaintext. -/
def hashTokenPlain (plain : String) : String :=
  "sha256:" ++ plain

/-- The `Invite` document from `src/models/Invite.js`.  `expiresAt` is an
epoch-milliseconds timestamp. -/
structure InviteDoc where
  note : String
  inviter : String
  email : Option String
  tokenHash : String
  permission : Perm
  expiresAt : Option Int
  used : Bool
deriving Repr, DecidableEq

/-- `Invite.createInvite(\x7b noteId, inviterId, permission, email, ttlMs \x7d)`:
normalises the optional e-mail (falsy → null, else trimmed and lowercased),
computes the expiry from a truthy ttl, stores only the token hash, and returns
the document together with the plaintext token.  The random plaintext is a
parameter (`crypto.randomBytes` entropy). -/
def createInvite (noteId inviterId : String) (permission : String) (email : Option String)
    (ttlMs : Option Int) (now : Int) (plain : String) : InviteDoc × String :=
  let email2 : Option String :=
    match email with
    | some e => if e = "" then none else some (lowerStr e.trim)
    | none => none
  let expiresAt : Option Int :=
    match ttlMs with
    | some t => if t = 0 then none else some (now + t)
    | none => none
  ({ note := noteId
     inviter := inviterId
     email := email2
     tokenHash := hashTokenPlain plain
     permission := if permission = "edit" then Perm.edit else Perm.read
     expiresAt := expiresAt
     used := false }, plain)

/-- Expiry test of `consumeInvite`:
`invite.expiresAt && invite.expiresAt < new Date()`. -/
def inviteExpired (i : InviteDoc) (now : Int) : Bool :=
  match i.expiresAt with
  | some d => d < now
  | none => false

/-- The e-mail restriction checks of `consumeInvite`, with JS string falsiness:
both e-mails truthy → compare trimmed lowercased; restricted invite with falsy
acceptor e-mail → matching e-mail required; otherwise no restriction applies.
Returns the error message thrown, if any. -/
def emailCheck (inviteEmail acceptorEmail : Option String) : Option String :=
  match inviteEmail, acceptorEmail with
  | some i, some a =>
    if i = "" then none
    else if a = "" then some "Invite requires matching email"
    else if lowerStr i.trim ≠ lowerStr a.trim then some "Invite restricted to different email"
    else none
  | some i, none => if i = "" then none else some "Invite requires matching email"
  | none, _ => none

/-- Lookup of `Invite.findOne(\x7b tokenHash: hashed \x7d)` over the invite
collection (`tokenHash` carries a unique index). -/
def findInviteByHash (invites : List InviteDoc) (hashed : String) : Option InviteDoc :=
  invites.find? (fun i => i.tokenHash == hashed)

/-- Persisting `invite.used = true; invite.save()` into the collection. -/
def markUsed (invites : List InviteDoc) (hashed : String) : List InviteDoc :=
  invites.map (fun i => if i.tokenHash = hashed then { i with used := true } else i)

/-- `Invite.consumeInvite(plainToken, acceptorUserId, acceptorEmail)` from
`src/models/Invite.js`: lookup by hash; unknown → invalid; `used` → already
used; past expiry → mark used then throw expired; e-mail restriction violated →
throw without marking; otherwise mark used and return the invite.  The
`acceptorUserId` argument is accepted but never read, exactly as in the
source. -/
def consumeInvite (invites : List InviteDoc) (plainToken : String) (acceptorUserId : String)
    (acceptorEmail : Option String) (now : Int) : Except String InviteDoc × List InviteDoc :=
  let hashed := hashTokenPlain plainToken
  match findInviteByHash invites hashed with
  | none => (Except.error "Invalid invite token", invites)
  | some invite =>
    if invite.used then (Except.error "Invite already used", invites)
    else if inviteExpired invite now then
      (Except.error "Invite expired", markUsed invites hashed)
    else
      match emailCheck invite.email acceptorEmail with
      | some msg => (Except.error msg, invites)
      | none => (Except.ok { invite with used := true }, markUsed invites hashed)

/-- The `POST /:id/invite` route handler from `src/routes/noteRoutes.js`: it
takes the authenticated user id and the note id from the URL and calls
`Invite.createInvite` directly — the handler performs no note lookup and no
permission or ownership check of any kind before issuing the token.  The
response exposes the invite document and the plaintext token. -/
def routePostInvite (userId : String) (noteId : String) (permission : String)
    (email : Option String) (ttlMs : Option Int) (now : Int) (plain : String) :
    InviteDoc × String :=
  createInvite noteId userId permission email ttlMs now plain

/-! ### Helper lemmas about the permission resolver and the sharing list -/

/-- The sharing-list scan finds nothing when no entry belongs to the user. -/
theorem scanShared_eq_none (need : Nat) (uid : String) :
    ∀ l : List SharedEntry, (∀ s ∈ l, s.user ≠ uid) → scanShared need uid l = none := by
  intro l
  induction l with
  | nil => intro _; rfl
  | cons s rest ih =>
    intro h
    simp only [scanShared]
    rw [if_neg (h s (List.mem_cons_self s rest))]
    exact ih (fun t ht => h t (List.mem_cons_of_mem s ht))

/-- The sharing-list scan skips a prefix containing no entry of the user. -/
theorem scanShared_append_of_not_mem (need : Nat) (uid : String)
    (l1 l2 : List SharedEntry) (h : ∀ s ∈ l1, s.user ≠ uid) :
    scanShared need uid (l1 ++ l2) = scanShared need uid l2 := by
  induction l1 with
  | nil => rfl
  | cons s rest ih =>
    simp only [List.cons_append, scanShared]
    rw [if_neg (h s (List.mem_cons_self s rest))]
    exact ih (fun t ht => h t (List.mem_cons_of_mem s ht))

/-- Every entry surviving the removal filter of `shareWith`/`unshareWith`
belongs to a different user. -/
theorem filter_user_ne (uid : String) (l : List SharedEntry) :
    ∀ s ∈ l.filter (fun s => s.user ≠ uid), s.user ≠ uid := by
  intro s hs
  have := List.mem_filter.mp hs
  simpa using this.2

/-- Explicit form of a successful `shareWith`. -/
theorem shareWith_ok (n : Note) (u p : String) (hu : u ≠ "") :
    shareWith n u p = Except.ok
      { n with sharedWith := n.sharedWith.filter (fun s => s.user ≠ u) ++
          [{ user := u, permission := if p = "edit" then Perm.edit else Perm.read }] } := by
  unfold shareWith
  rw [if_neg hu]

/-- Explicit form of a successful `unshareWith`. -/
theorem unshareWith_ok (n : Note) (u : String) (hu : u ≠ "") :
    unshareWith n u =
      Except.ok { n with sharedWith := n.sharedWith.filter (fun s => s.user ≠ u) } := by
  unfold unshareWith
  rw [if_neg hu]

/-- A successful `shareWith` forces a non-empty target user id. -/
theorem shareWith_ok_ne_empty (n : Note) (u p : String) (n' : Note)
    (h : shareWith n u p = Except.ok n') : u ≠ "" := by
  intro he
  rw [he] at h
  simp [shareWith] at h

/-- A successful `unshareWith` forces a non-empty target user id. -/
theorem unshareWith_ok_ne_empty (n : Note) (u : String) (n' : Note)
    (h : unshareWith n u = Except.ok n') : u ≠ "" := by
  intro he
  rw [he] at h
  simp [unshareWith] at h

/-- Filtering for a user returns nothing on a list holding no entry of that
user. -/
theorem filter_user_eq_nil (uid : String) (l : List SharedEntry)
    (h : ∀ s ∈ l, s.user ≠ uid) : l.filter (fun s => s.user = uid) = [] := by
  induction l with
  | nil => rfl
  | cons s rest ih =>
    rw [List.filter_cons]
    have hne : ¬ (s.user = uid) := h s (List.mem_cons_self s rest)
    simp only [hne, decide_False, if_false, decide_eq_true_eq]
    exact ih (fun t ht => h t (List.mem_cons_of_mem s ht))

/-! ### Claim C5 -/

/-- C5: for every document and every user who is not the document's owner, has
no entry in the sharing list, and does not benefit from the public flag (the
flag is off, or the requested level needs more than read), the permission
resolver returns none for every requested level. -/
theorem C5_theorem (n : Note) (uid : String) (required : String)
    (howner : n.owner ≠ uid)
    (hlist : ∀ s ∈ n.sharedWith, s.user ≠ uid)
    (hpub : ¬ (n.isPublic = true ∧ levelNeed required ≤ 1)) :
    hasPermission n (some uid) required = none := by
  by_cases he : uid = ""
  · simp [hasPermission, he]
  · simp only [hasPermission]
    rw [if_neg he, if_neg howner, if_neg hpub]
    exact scanShared_eq_none (levelNeed required) uid n.sharedWith hlist

/-- Document for the C5 witness: owned by alice, shared only with carol, not
public. -/
def c5note : Note :=
  { id := "n5", owner := "alice", title := "t", body := "b", tags := [], version := 3,
    deleted := false, lastModifiedByClientId := none,
    sharedWith := [{ user := "carol", permission := Perm.edit }], isPublic := false }

/-- Witness for C5 at a concrete stranger and level. -/
theorem C5_witness : hasPermission c5note (some "mallory") "edit" = none :=
  C5_theorem c5note "mallory" "edit" (by decide) (by decide) (by decide)

/-! ### Claims C8 and C9 -/

/-- Resolving for the freshly granted user after a grant: the scan reaches the
pushed entry. -/
theorem hasPermission_after_shareWith (n : Note) (u p req : String) (n' : Note)
    (ho : n.owner ≠ u) (h : shareWith n u p = Except.ok n') :
    hasPermission n' (some u) req =
      (if n.isPublic = true ∧ levelNeed req ≤ 1 then some PermLevel.public
       else scanShared (levelNeed req) u
         [{ user := u, permission := if p = "edit" then Perm.edit else Perm.read }]) := by
  have hu : u ≠ "" := shareWith_ok_ne_empty n u p n' h
  rw [shareWith_ok n u p hu] at h
  injection h with h2
  subst h2
  simp only [hasPermission]
  rw [if_neg hu, if_neg ho]
  by_cases hp : n.isPublic = true ∧ levelNeed req ≤ 1
  · rw [if_pos hp, if_pos hp]
  · rw [if_neg hp, if_neg hp]
    exact scanShared_append_of_not_mem (levelNeed req) u _ _
      (filter_user_ne u n.sharedWith)

/-- C9 (amended): grant then resolve yields the granted level, except that a
granted `read` on a public document resolves to `public`; a grant leaves
exactly one sharing entry for the target user; revoke then resolve yields none
on a non-public document at every requested level; revoke of a user holding no
entry returns the document unchanged and never errors. -/
theorem C9_theorem :
    (∀ (n : Note) (u : String) (n' : Note), n.owner ≠ u →
        shareWith n u "edit" = Except.ok n' →
        hasPermission n' (some u) "edit" = some PermLevel.edit) ∧
    (∀ (n : Note) (u : String) (n' : Note), n.owner ≠ u →
        shareWith n u "read" = Except.ok n' →
        hasPermission n' (some u) "read" =
          some (if n.isPublic then PermLevel.public else PermLevel.read)) ∧
    (∀ (n : Note) (u p : String) (n' : Note), shareWith n u p = Except.ok n' →
        (n'.sharedWith.filter (fun s => s.user = u)).length = 1) ∧
    (∀ (n : Note) (u req : String) (n' : Note), n.owner ≠ u → n.isPublic = false →
        unshareWith n u = Except.ok n' →
        hasPermission n' (some u) req = none) ∧
    (∀ (n : Note) (u : String), u ≠ "" → (∀ s ∈ n.sharedWith, s.user ≠ u) →
        unshareWith n u = Except.ok n) := by
  refine ⟨?_, ?_, ?_, ?_, ?_⟩
  · intro n u n' ho h
    rw [hasPermission_after_shareWith n u "edit" "edit" n' ho h]
    have : ¬ (n.isPublic = true ∧ levelNeed "edit" ≤ 1) := by
      intro hc
      simpa [levelNeed] using hc.2
    rw [if_neg this]
    simp [scanShared, levelNeed]
  · intro n u n' ho h
    rw [hasPermission_after_shareWith n u "read" "read" n' ho h]
    by_cases hp : n.isPublic = true
    · rw [if_pos ⟨hp, by simp [levelNeed]⟩, hp, if_pos rfl]
    · have hp' : n.isPublic = false := by
        cases hb : n.isPublic
        · rfl
        · exact absurd hb hp
      rw [if_neg (fun hc => hp hc.1), hp', if_neg (by simp)]
      simp [scanShared, levelNeed]
  · intro n u p n' h
    have hu : u ≠ "" := shareWith_ok_ne_empty n u p n' h
    rw [shareWith_ok n u p hu] at h
    injection h with h2
    subst h2
    simp only [List.filter_append]
    rw [filter_user_eq_nil u _ (filter_user_ne u n.sharedWith)]
    simp
  · intro n u req n' ho hp h
    have hu : u ≠ "" := unshareWith_ok_ne_empty n u n' h
    rw [unshareWith_ok n u hu] at h
    injection h with h2
    subst h2
    simp only [hasPermission]
    rw [if_neg hu, if_neg ho, if_neg (by rw [hp]; simp)]
    exact scanShared_eq_none (levelNeed req) u _ (filter_user_ne u n.sharedWith)
  · intro n u hu h
    rw [unshareWith_ok n u hu]
    have heq : n.sharedWith.filter (fun s => s.user ≠ u) = n.sharedWith := by
      apply List.filter_eq_self.mpr
      intro s hs
      simpa using h s hs
    rw [heq]

/-- Public document used to refute C9 as stated. -/
def c9pubNote : Note :=
  { id := "n9", owner := "alice", title := "", body := "", tags := [], version := 1,
    deleted := false, lastModifiedByClientId := none, sharedWith := [], isPublic := true }

/-- C9 counterexample: on a public document, granting `read` to bob and then
resolving bob at `read` returns `public`, not the granted level `read`, so the
claim as stated fails. -/
theorem C9_counterexample :
    ((shareWith c9pubNote "bob" "read").toOption.map
        (fun n' => hasPermission n' (some "bob") "read")) = some (some PermLevel.public) ∧
      PermLevel.public ≠ PermLevel.read := by
  exact ⟨rfl, by decide⟩

/-- Non-public document for the C9 witness. -/
def c9wnote : Note :=
  { id := "n9b", owner := "alice", title := "", body := "", tags := [], version := 1,
    deleted := false, lastModifiedByClientId := none,
    sharedWith := [{ user := "bob", permission := Perm.read }], isPublic := false }

/-- Result of granting bob `edit` on `c9wnote` (replacing his `read` entry). -/
def c9wnote2 : Note :=
  { c9wnote with sharedWith := [{ user := "bob", permission := Perm.edit }] }

/-- Witness for C9 at a concrete grant. -/
theorem C9_witness : hasPermission c9wnote2 (some "bob") "edit" = some PermLevel.edit :=
  C9_theorem.1 c9wnote "bob" c9wnote2 (by decide) rfl

/-! ### Claim C8 -/

/-- C8 (amended): the sharing-list mutations preserve the owner-not-shared
invariant whenever the target user is not the owner, and revocation preserves
it unconditionally; the guard does not exist in the code itself, so a grant
targeting the owner inserts the owner into the sharing list (see the
counterexample). -/
theorem C8_theorem :
    (∀ (n : Note) (u p : String) (n' : Note), u ≠ n.owner →
        shareWith n u p = Except.ok n' →
        (∀ s ∈ n.sharedWith, s.user ≠ n.owner) →
        ∀ s ∈ n'.sharedWith, s.user ≠ n'.owner) ∧
    (∀ (n : Note) (u : String) (n' : Note),
        unshareWith n u = Except.ok n' →
        (∀ s ∈ n.sharedWith, s.user ≠ n.owner) →
        ∀ s ∈ n'.sharedWith, s.user ≠ n'.owner) := by
  constructor
  · intro n u p n' hu h hinv s hs
    have hne : u ≠ "" := shareWith_ok_ne_empty n u p n' h
    rw [shareWith_ok n u p hne] at h
    injection h with h2
    subst h2
    simp only at hs ⊢
    rcases List.mem_append.mp hs with hmem | hmem
    · exact hinv s (List.mem_of_mem_filter hmem)
    · have : s = ({ user := u, permission := if p = "edit" then Perm.edit else Perm.read } :
          SharedEntry) := List.mem_singleton.mp hmem
      rw [this]
      exact hu
  · intro n u n' h hinv s hs
    have hne : u ≠ "" := unshareWith_ok_ne_empty n u n' h
    rw [unshareWith_ok n u hne] at h
    injection h with h2
    subst h2
    simp only at hs ⊢
    exact hinv s (List.mem_of_mem_filter hs)

/-- Document and store used to refute C8 as stated: alice owns `n1`. -/
def c8note : Note :=
  { id := "n1", owner := "alice", title := "", body := "", tags := [], version := 1,
    deleted := false, lastModifiedByClientId := none, sharedWith := [], isPublic := false }

/-- Store holding only `c8note`. -/
def c8store : Store := { notes := [c8note], nextId := 2 }

/-- C8 counterexample: `PermissionService.shareNote` invoked by the owner with
the owner as the target user succeeds and places the owner in the sharing
list, violating the invariant the claim asserts is preserved. -/
theorem C8_counterexample :
    ((shareNote c8store "n1" "alice" "alice" "read").toOption.map
        (fun p => p.1.sharedWith.any (fun s => s.user == p.1.owner))) = some true := by
  rfl

/-- Witness for C8 at a concrete non-owner grant. -/
theorem C8_witness :
    ∀ s ∈ ({ c8note with
        sharedWith := [{ user := "bob", permission := Perm.read }] } : Note).sharedWith,
      s.user ≠ ({ c8note with
        sharedWith := [{ user := "bob", permission := Perm.read }] } : Note).owner :=
  C8_theorem.1 c8note "bob" "read" _ (by decide) rfl (by decide)

/-! ### Claim C3 -/

/-- Note used by C3: owned by alice, not shared, not public — bob holds no
permission whatsoever on it. -/
def c3note : Note :=
  { id := "n3", owner := "alice", title := "", body := "", tags := [], version := 1,
    deleted := false, lastModifiedByClientId := none, sharedWith := [], isPublic := false }

/-- C3: the invite-issuing route calls `Invite.createInvite` without any
ownership or permission check, so bob — who resolves to no permission at all
on alice's note — successfully obtains an edit-capability token for it,
contradicting the claim that non-owner issuance fails. -/
theorem C3_theorem :
    hasPermission c3note (some "bob") "read" = none ∧
    hasPermission c3note (some "bob") "edit" = none ∧
    routePostInvite "bob" "n3" "edit" none none 0 "tok" =
      ({ note := "n3", inviter := "bob", email := none, tokenHash := hashTokenPlain "tok",
         permission := Perm.edit, expiresAt := none, used := false }, "tok") :=
  ⟨rfl, rfl, rfl⟩

/-! ### Claim C7 -/

/-- Consuming a token whose invite is already marked used fails with the
already-used error and leaves the collection untouched. -/
theorem consumeInvite_already_used (invites : List InviteDoc) (tok u : String)
    (e : Option String) (t : Int) (i : InviteDoc)
    (hfind : findInviteByHash invites (hashTokenPlain tok) = some i)
    (hused : i.used = true) :
    consumeInvite invites tok u e t = (Except.error "Invite already used", invites) := by
  simp only [consumeInvite, hfind, hused, if_true]

/-- Consuming an unused but expired token marks it used and fails expired. -/
theorem consumeInvite_expired (invites : List InviteDoc) (tok u : String)
    (e : Option String) (t : Int) (i : InviteDoc)
    (hfind : findInviteByHash invites (hashTokenPlain tok) = some i)
    (hused : i.used = false) (hexp : inviteExpired i t = true) :
    consumeInvite invites tok u e t =
      (Except.error "Invite expired", markUsed invites (hashTokenPlain tok)) := by
  simp only [consumeInvite, hfind, hused, hexp, Bool.false_eq_true, if_false, if_true]

/-- Consuming an unused, unexpired token whose e-mail restriction check fails
raises that check's error and leaves the collection untouched. -/
theorem consumeInvite_email_err (invites : List InviteDoc) (tok u : String)
    (e : Option String) (t : Int) (i : InviteDoc) (msg : String)
    (hfind : findInviteByHash invites (hashTokenPlain tok) = some i)
    (hused : i.used = false) (hexp : inviteExpired i t = false)
    (hmail : emailCheck i.email e = some msg) :
    consumeInvite invites tok u e t = (Except.error msg, invites) := by
  simp only [consumeInvite, hfind, hused, hexp, hmail, Bool.false_eq_true, if_false]

/-- Consuming an unused, unexpired token passing the e-mail restriction
succeeds, returning the invite and marking it used. -/
theorem consumeInvite_success (invites : List InviteDoc) (tok u : String)
    (e : Option String) (t : Int) (i : InviteDoc)
    (hfind : findInviteByHash invites (hashTokenPlain tok) = some i)
    (hused : i.used = false) (hexp : inviteExpired i t = false)
    (hmail : emailCheck i.email e = none) :
    consumeInvite invites tok u e t =
      (Except.ok { i with used := true }, markUsed invites (hashTokenPlain tok)) := by
  simp only [consumeInvite, hfind, hused, hexp, hmail, Bool.false_eq_true, if_false]

/-- Marking a hash used rewrites exactly the invite found under that hash. -/
theorem findInviteByHash_markUsed (l : List InviteDoc) (h : String) :
    findInviteByHash (markUsed l h) h =
      (findInviteByHash l h).map (fun i => { i with used := true }) := by
  induction l with
  | nil => rfl
  | cons i rest ih =>
    simp only [findInviteByHash, markUsed, List.map_cons, List.find?_cons] at ih ⊢
    by_cases hc : i.tokenHash = h
    · simp [hc]
    · simp only [if_neg hc]
      have hb : (i.tokenHash == h) = false := beq_eq_false_iff_ne.mpr hc
      simp only [hb]
      exact ih

/-- C7: once any redemption attempt has marked a token used (success or
expiry), every later attempt fails with the already-used error; an expiry
failure itself marks the token used (terminal); an e-mail-mismatch failure
leaves the collection — hence the token's unused flag — untouched, and a later
attempt with a matching e-mail (while unexpired) succeeds; the e-mail
comparison is on trimmed lowercased strings, hence case-insensitive. -/
theorem C7_theorem :
    (∀ (invites : List InviteDoc) (tok u : String) (e : Option String) (t : Int) (i : InviteDoc),
        findInviteByHash invites (hashTokenPlain tok) = some i → i.used = true →
        consumeInvite invites tok u e t = (Except.error "Invite already used", invites)) ∧
    (∀ (invites : List InviteDoc) (tok u : String) (e : Option String) (t : Int) (i : InviteDoc),
        findInviteByHash invites (hashTokenPlain tok) = some i → i.used = false →
        inviteExpired i t = true →
        consumeInvite invites tok u e t =
          (Except.error "Invite expired", markUsed invites (hashTokenPlain tok)) ∧
        findInviteByHash (markUsed invites (hashTokenPlain tok)) (hashTokenPlain tok) =
          some { i with used := true }) ∧
    (∀ (invites : List InviteDoc) (tok u1 : String) (t : Int) (i : InviteDoc) (ie ae : String),
        findInviteByHash invites (hashTokenPlain tok) = some i → i.used = false →
        inviteExpired i t = false → i.email = some ie → ie ≠ "" → ae ≠ "" →
        lowerStr ie.trim ≠ lowerStr ae.trim →
        consumeInvite invites tok u1 (some ae) t =
          (Except.error "Invite restricted to different email", invites) ∧
        (∀ (u2 ae2 : String) (t2 : Int), ae2 ≠ "" → lowerStr ie.trim = lowerStr ae2.trim →
            inviteExpired i t2 = false →
            consumeInvite invites tok u2 (some ae2) t2 =
              (Except.ok { i with used := true }, markUsed invites (hashTokenPlain tok)))) ∧
    (∀ ie ae : String, ie ≠ "" → ae ≠ "" → lowerStr ie.trim = lowerStr ae.trim →
        emailCheck (some ie) (some ae) = none) := by
  refine ⟨consumeInvite_already_used, ?_, ?_, ?_⟩
  · intro invites tok u e t i hfind hused hexp
    refine ⟨consumeInvite_expired invites tok u e t i hfind hused hexp, ?_⟩
    rw [findInviteByHash_markUsed, hfind]
    rfl
  · intro invites tok u1 t i ie ae hfind hused hexp hie hne1 hne2 hmis
    constructor
    · apply consumeInvite_email_err invites tok u1 (some ae) t i _ hfind hused hexp
      simp only [emailCheck, hie, if_neg hne1, if_neg hne2, if_pos hmis]
    · intro u2 ae2 t2 hne3 hmat hexp2
      apply consumeInvite_success invites tok u2 (some ae2) t2 i hfind hused hexp2
      simp only [emailCheck, hie, if_neg hne1, if_neg hne3, hmat]
      simp
  · intro ie ae hne1 hne2 hmat
    simp only [emailCheck, if_neg hne1, if_neg hne2, hmat]
    simp

/-- Used (terminal) invite for the C7 witness. -/
def c7invite : InviteDoc :=
  { note := "n1", inviter := "alice", email := none, tokenHash := hashTokenPlain "tk7",
    permission := Perm.read, expiresAt := none, used := true }

/-- Witness for C7: an already-used concrete token is rejected again. -/
theorem C7_witness :
    consumeInvite [c7invite] "tk7" "bob" none 0 = (Except.error "Invite already used", [c7invite]) :=
  C7_theorem.1 [c7invite] "tk7" "bob" none 0 c7invite rfl rfl

/-! ### Claim C4 -/

/-- C4: when the version gate rejects an update as a conflict the store is
untouched, no cache invalidation and no notification happen, and the returned
snapshot is exactly the document currently loaded for the targeted id. -/
theorem C4_theorem (u : String) (c : ChangeRequest) (store : Store)
    (hc : (applyUpdate u c store).1.status = Status.conflict) :
    (applyUpdate u c store).2.1 = store ∧ (applyUpdate u c store).2.2 = [] ∧
      (applyUpdate u c store).1.serverNote =
        (c.note.bind ChangePayload.id).bind (fun nid => findOneActive store nid) := by
  rcases hn : c.note with _ | note
  · simp [applyUpdate, hn, errResult] at hc
  · rcases hid : note.id with _ | nid
    · simp [applyUpdate, hn, hid, errResult] at hc
    · rcases hfind : findOneActive store nid with _ | doc
      · simp [applyUpdate, hn, hid, hfind, errResult] at hc
      · by_cases hperm : permAllowsEdit (hasPermission doc (some u) "edit") = true
        · rcases hv : note.version with _ | v
          · simp [applyUpdate, hn, hid, hfind, hperm, hv, commitUpdate] at hc
          · by_cases hlt : v < doc.version
            · simp only [applyUpdate, hn, hid, hfind, if_pos hperm, hv, if_pos hlt]
              simp [hid, hfind]
            · simp [applyUpdate, hn, hid, hfind, hperm, hv, hlt, commitUpdate] at hc
        · simp [applyUpdate, hn, hid, hfind, hperm, errResult] at hc

/-- Document for the sync-claim witnesses: alice's live note at version 5. -/
def syncNote : Note :=
  { id := "n1", owner := "alice", title := "old", body := "old", tags := [], version := 5,
    deleted := false, lastModifiedByClientId := none, sharedWith := [], isPublic := false }

/-- Store holding only `syncNote`. -/
def syncStore : Store := { notes := [syncNote], nextId := 2 }

/-- Stale update change targeting `syncNote` with client version 1. -/
def staleUpdateChange : ChangeRequest :=
  { op := some "update", localId := some "L1",
    note := some { id := some "n1", title := some "new", body := none, tags := none,
                   version := some 1, lastModifiedByClientId := none } }

/-- Witness for C4 at the concrete stale update. -/
theorem C4_witness :
    (applyUpdate "alice" staleUpdateChange syncStore).2.1 = syncStore ∧
      (applyUpdate "alice" staleUpdateChange syncStore).2.2 = [] ∧
      (applyUpdate "alice" staleUpdateChange syncStore).1.serverNote =
        (staleUpdateChange.note.bind ChangePayload.id).bind
          (fun nid => findOneActive syncStore nid) :=
  C4_theorem "alice" staleUpdateChange syncStore rfl

/-! ### Claim C10 -/

/-- C10: an update whose payload carries no numeric version bypasses the
version gate entirely — given a live target and edit permission it commits
with outcome `ok` (never `conflict`), bumping the stored version. -/
theorem C10_theorem (u : String) (c : ChangeRequest) (note : ChangePayload) (nid : String)
    (doc : Note) (store : Store)
    (hn : c.note = some note) (hid : note.id = some nid) (hv : note.version = none)
    (hfind : findOneActive store nid = some doc)
    (hperm : permAllowsEdit (hasPermission doc (some u) "edit") = true) :
    (applyUpdate u c store).1.status = Status.ok ∧
      (applyUpdate u c store).1.serverNote.map Note.version = some (doc.version + 1) := by
  simp only [applyUpdate, hn, hid, hfind, if_pos hperm, hv]
  simp [commitUpdate, bumpVersion]

/-- Versionless update change targeting `syncNote`. -/
def versionlessUpdateChange : ChangeRequest :=
  { op := some "update", localId := some "L2",
    note := some { id := some "n1", title := some "new", body := none, tags := none,
                   version := none, lastModifiedByClientId := none } }

/-- Witness for C10 at the concrete versionless update. -/
theorem C10_witness :
    (applyUpdate "alice" versionlessUpdateChange syncStore).1.status = Status.ok ∧
      (applyUpdate "alice" versionlessUpdateChange syncStore).1.serverNote.map Note.version =
        some (syncNote.version + 1) :=
  C10_theorem "alice" versionlessUpdateChange
    { id := some "n1", title := some "new", body := none, tags := none,
      version := none, lastModifiedByClientId := none }
    "n1" syncNote syncStore rfl rfl rfl rfl rfl

/-! ### Claim C1 -/

/-- Stale delete change targeting `syncNote` with client version 1 against
server version 5. -/
def staleDeleteChange : ChangeRequest :=
  { op := some "delete", localId := some "L3",
    note := some { id := some "n1", title := none, body := none, tags := none,
                   version := some 1, lastModifiedByClientId := none } }

/-- C1 counterexample: a delete request carrying numeric clientVersion 1,
strictly less than the server's current version 5, is processed by the sync
engine with outcome `ok` — the mutation commits — not `conflict`. -/
theorem C1_counterexample :
    (1 : Int) < syncNote.version ∧
      ((syncChanges "alice" [some staleDeleteChange] syncStore).toOption.map
          (fun x => x.1.map SyncResult.status)) = some [Status.ok] :=
  ⟨by decide, rfl⟩

/-- C1 (amended): an update that reaches the version gate (live target, edit
permission held) with a numeric clientVersion strictly below the current
version always yields `conflict`, commits nothing, performs no side effect and
returns the authoritative snapshot, whose version is the server's current one;
a delete under the same conditions is exempt from the gate and commits with
outcome `ok`, soft-deleting and bumping the document. -/
theorem C1_theorem :
    (∀ (u : String) (c : ChangeRequest) (note : ChangePayload) (nid : String) (v : Int)
        (doc : Note) (store : Store),
        c.note = some note → note.id = some nid → note.version = some v →
        findOneActive store nid = some doc →
        permAllowsEdit (hasPermission doc (some u) "edit") = true → v < doc.version →
        applyUpdate u c store =
          ({ localId := c.localId, id := some nid, status := Status.conflict,
             serverNote := some doc, error := none }, store, [])) ∧
    (∀ (u : String) (c : ChangeRequest) (note : ChangePayload) (nid : String) (v : Int)
        (doc : Note) (store : Store),
        c.note = some note → note.id = some nid → note.version = some v →
        findOneActive store nid = some doc →
        permAllowsEdit (hasPermission doc (some u) "edit") = true → v < doc.version →
        (applyDelete u c store).1.status = Status.ok ∧
          (applyDelete u c store).2.1 = saveNote store (softDelete doc)) := by
  constructor
  · intro u c note nid v doc store hn hid hv hfind hperm hlt
    simp only [applyUpdate, hn, hid, hfind, if_pos hperm, hv, if_pos hlt]
  · intro u c note nid v doc store hn hid hv hfind hperm hlt
    simp only [applyDelete, hn, hid, hfind, if_pos hperm]
    exact ⟨trivial, trivial⟩

/-- Witness for C1 (amended) at the concrete stale update. -/
theorem C1_witness :
    applyUpdate "alice" staleUpdateChange syncStore =
      ({ localId := some "L1", id := some "n1", status := Status.conflict,
         serverNote := some syncNote, error := none }, syncStore, []) :=
  C1_theorem.1 "alice" staleUpdateChange
    { id := some "n1", title := some "new", body := none, tags := none,
      version := some 1, lastModifiedByClientId := none }
    "n1" 1 syncNote syncStore rfl rfl rfl rfl rfl (by decide)

/-! ### Claim C6 -/

/-- Create change suggesting version 0. -/
def zeroVersionCreate : ChangeRequest :=
  { op := some "create", localId := none,
    note := some { id := none, title := some "t", body := none, tags := none,
                   version := some 0, lastModifiedByClientId := none } }

/-- C6 counterexample: a create whose client-suggested version is 0 — below
the claimed minimum of 1 — is stored verbatim: the created document has
version 0, so the created version neither starts at 1 nor respects the
suggested-version-only-when-at-least-1 rule. -/
theorem C6_counterexample :
    ((applyCreate "alice" zeroVersionCreate { notes := [], nextId := 1 }).toOption.map
        (fun x => x.1.serverNote.map Note.version)) = some (some 0) ∧ ¬ ((1 : Int) ≤ 0) :=
  ⟨rfl, by decide⟩

/-- C6 (amended): the created document's version is 1 when the client supplies
no numeric version, and is the client-suggested value verbatim whenever a
numeric version is supplied — with no lower bound of any kind. -/
theorem C6_theorem (u : String) (c : ChangeRequest) (note : ChangePayload) (store : Store)
    (hn : c.note = some note) :
    ((applyCreate u c store).toOption.map
        (fun x => x.1.serverNote.map Note.version)) = some (some (note.version.getD 1)) := by
  simp only [applyCreate, hn]
  rfl

/-- Witness for C6 (amended) at a concrete versionless create. -/
theorem C6_witness :
    ((applyCreate "alice"
          { op := some "create", localId := none,
            note := some { id := none, title := some "t", body := none, tags := none,
                           version := none, lastModifiedByClientId := none } }
          { notes := [], nextId := 1 }).toOption.map
        (fun x => x.1.serverNote.map Note.version)) = some (some 1) :=
  C6_theorem "alice" _
    { id := none, title := some "t", body := none, tags := none,
      version := none, lastModifiedByClientId := none }
    { notes := [], nextId := 1 } rfl

/-! ### Claim C2 -/

/-- A malformed but non-null change (missing op), handled per-change. -/
def malformedChange : ChangeRequest := { op := none, localId := some "L9", note := none }

/-- C2: a batch containing a `null` entry makes `syncChanges` itself throw —
the `!change` guard and the per-change catch handler both dereference
`change.localId` — so the call rejects as a whole, returns no outcome list at
all (even the already-computed sibling outcomes are lost), contradicting the
claimed same-length outcome list and never-throwing batch.  A null entry
placed after a processable sibling still destroys the whole batch. -/
theorem C2_theorem :
    syncChanges "u" [none] { notes := [], nextId := 1 } =
      Except.error "TypeError: Cannot read properties of null" ∧
    syncChanges "u" [some malformedChange, none] { notes := [], nextId := 1 } =
      Except.error "TypeError: Cannot read properties of null" :=
  ⟨rfl, rfl⟩

end NotesApp
